import Mathlib

/-!
Verification of the ai4se-2024-setup repository: a shallow embedding of the
notebook's `tokenize` and `block` functions, of the dataset split, and of the
launch script `run.sh`, with theorems settling the specification claims.
-/

namespace AI4SE

/-- A tokenized dataset row, as returned by the notebook's `tokenize`:
a list of integer token ids and a list of training labels. -/
structure TokenizedRow where
  input_ids : List Nat
  labels : List Nat
deriving Repr, DecidableEq

/-- The notebook's `tokenize` function. The external tokenizer's `encode`
method and its `eos_token_id` are parameters of the embedding:
`input_ids = tokenizer.encode(source) + [tokenizer.eos_token_id]`,
`labels = input_ids.copy()`. -/
def tokenize (encode : String → List Nat) (eos_token_id : Nat)
    (source : String) : TokenizedRow :=
  let input_ids := encode source ++ [eos_token_id]
  let labels := input_ids
  { input_ids := input_ids, labels := labels }

/-- The result of the notebook's `block`: a dict with keys
`input_ids` and `labels`, each a list of blocks. -/
structure BlockedBatch where
  input_ids : List (List Nat)
  labels : List (List Nat)
deriving Repr, DecidableEq

/-- Python list slicing `l[i : j]` for nonnegative bounds. -/
def pySlice (l : List Nat) (i j : Nat) : List Nat :=
  (l.take j).drop i

/-- The notebook's `block` function.
```
def block(data, block_size=128):
    concatenated = sum(data['input_ids'], [])
    length = len(concatenated)
    truncated_length = (length // block_size) * block_size
    blocked_ids = [concatenated[i : i + block_size]
                   for i in range(0, truncated_length, block_size)]
    pad_length = block_size - (length % block_size)
    if pad_length != block_size:
        blocked_ids += [concatenated[truncated_length:]
                        + [tokenizer.eos_token_id] * pad_length]
    assert len(blocked_ids) > 0
    return {'input_ids': blocked_ids, 'labels': blocked_ids.copy()}
```
The global `tokenizer.eos_token_id` is a parameter; the failed `assert`
(Python `AssertionError`) is modelled as `none`. For `block_size > 0`,
`range(0, truncated_length, block_size)` is
`[0, block_size, ..., truncated_length - block_size]`, i.e. the
`length // block_size` successive multiples of `block_size`. -/
def block (eos_token_id : Nat) (input_ids : List (List Nat))
    (block_size : Nat) : Option BlockedBatch :=
  let concatenated := input_ids.flatten
  let length := concatenated.length
  let truncated_length := (length / block_size) * block_size
  let blocked_ids := (List.range (length / block_size)).map
    (fun k => pySlice concatenated (k * block_size) (k * block_size + block_size))
  let pad_length := block_size - (length % block_size)
  let blocked_ids :=
    if pad_length ≠ block_size then
      blocked_ids ++ [concatenated.drop truncated_length
        ++ List.replicate pad_length eos_token_id]
    else blocked_ids
  if blocked_ids.length > 0 then
    some { input_ids := blocked_ids, labels := blocked_ids }
  else
    none

/-- The token-id sequences handed to block packing: the `input_ids` column of
the tokenized dataset, i.e. `tokenize` mapped over the source snippets. -/
def tokenizedIds (encode : String → List Nat) (eos_token_id : Nat)
    (sources : List String) : List (List Nat) :=
  sources.map (fun s => (tokenize encode eos_token_id s).input_ids)

/-- Modelled from the spec: the notebook calls the dataset library's
`train_test_split(test_size = 0.1, shuffle = True, seed = 421337)`; the
splitter itself is library code, not part of this repository. Per the spec,
it shuffles the rows by a seed-derived permutation of the index range and
splits the shuffled list into a test part and a train part. The seed-derived
index order is the parameter `perm`; `test_count` is the number of test rows. -/
def seededShuffle {α : Type} (perm : List Nat) (rows : List α) : List α :=
  perm.filterMap (fun i => rows[i]?)

/-- Modelled from the spec: the split of the shuffled rows into
`(train, test)`, the test part taking the first `test_count` shuffled rows. -/
def train_test_split {α : Type} (perm : List Nat) (test_count : Nat)
    (rows : List α) : List α × List α :=
  let shuffled := seededShuffle perm rows
  (shuffled.drop test_count, shuffled.take test_count)

/-! ### The launch script `run.sh`

`run.sh` sets `AI_GROUP=1` and `AI_LOGIN=set_notebook_password`, then
overrides `AI_GROUP` from `$1` when `$# -eq 1`, and both from `$1`/`$2` when
`$# -eq 2`; with any other argument count the defaults stand. It then
computes `AI_GPU=$((AI_GROUP % 4))`, `AI_PORT=$((8000 + AI_GROUP))` and
`AI_CONTAINER_NAME=ai4se-$AI_GROUP`. -/

/-- The default group number set at the top of `run.sh` (`export AI_GROUP=1`). -/
def default_AI_GROUP : String := "1"

/-- The default login token set at the top of `run.sh`
(`export AI_LOGIN=set_notebook_password`). -/
def default_AI_LOGIN : String := "set_notebook_password"

/-- The value of `AI_GROUP` after argument handling in `run.sh`. -/
def AI_GROUP (args : List String) : String :=
  match args with
  | [g] => g
  | [g, _] => g
  | _ => default_AI_GROUP

/-- The value of `AI_LOGIN` after argument handling in `run.sh`. -/
def AI_LOGIN (args : List String) : String :=
  match args with
  | [_] => default_AI_LOGIN
  | [_, l] => l
  | _ => default_AI_LOGIN

/-- Bash arithmetic evaluation of a variable holding a decimal numeral, as in
`$((AI_GROUP % 4))`: the numeral's value when the string is a non-empty string
of decimal digits, and `0` otherwise (bash then resolves the string as a
variable name, unset here). -/
def bashNat (s : String) : Nat :=
  if s.data ≠ [] ∧ s.data.all Char.isDigit then
    s.data.foldl (fun n c => 10 * n + (c.toNat - 48)) 0
  else 0

/-- `AI_GROUP` as the number bash arithmetic sees. -/
def AI_GROUP_num (args : List String) : Nat :=
  bashNat (AI_GROUP args)

/-- `export AI_GPU=$((AI_GROUP % 4))` in `run.sh`. -/
def AI_GPU (args : List String) : Nat :=
  AI_GROUP_num args % 4

/-- `export AI_PORT=$((8000 + AI_GROUP))` in `run.sh`. -/
def AI_PORT (args : List String) : Nat :=
  8000 + AI_GROUP_num args

/-- `export AI_CONTAINER_NAME=ai4se-$AI_GROUP` in `run.sh`. -/
def AI_CONTAINER_NAME (args : List String) : String :=
  "ai4se-" ++ AI_GROUP args

/-! ### Helper lemmas about `block` -/

/-- `l[i : i + m] = (l.drop i).take m`. -/
theorem pySlice_eq (l : List Nat) (i m : Nat) :
    pySlice l i (i + m) = (l.drop i).take m := by
  rw [pySlice, List.drop_take, Nat.add_sub_cancel_left]

/-- The full blocks emitted by `block`: the `length // block_size` slices of
width `block_size`. -/
def fullBlocks (c : List Nat) (bs : Nat) : List (List Nat) :=
  (List.range (c.length / bs)).map
    (fun k => pySlice c (k * bs) (k * bs + bs))

/-- Flattening the first `m` width-`bs` slices of `c` recovers the first
`m * bs` tokens of `c`. -/
theorem flatten_slices (c : List Nat) (bs : Nat) :
    ∀ m : Nat,
      ((List.range m).map (fun k => pySlice c (k * bs) (k * bs + bs))).flatten
        = c.take (m * bs) := by
  intro m
  induction m with
  | zero => simp
  | succ m ih =>
    rw [List.range_succ, List.map_append, List.flatten_append, ih]
    simp only [List.map_cons, List.map_nil, List.flatten_cons, List.flatten_nil,
      List.append_nil, pySlice_eq]
    rw [Nat.succ_mul, List.take_add]

/-- Flattening the full blocks recovers the truncated stream. -/
theorem fullBlocks_flatten (c : List Nat) (bs : Nat) :
    (fullBlocks c bs).flatten = c.take (c.length / bs * bs) :=
  flatten_slices c bs (c.length / bs)

/-- Every full block has exactly `bs` tokens. -/
theorem fullBlocks_length (c : List Nat) (bs : Nat) :
    ∀ b ∈ fullBlocks c bs, b.length = bs := by
  intro b hb
  rw [fullBlocks, List.mem_map] at hb
  obtain ⟨k, hk, rfl⟩ := hb
  rw [List.mem_range] at hk
  rw [pySlice_eq, List.length_take, List.length_drop]
  have h1 : (k + 1) * bs ≤ c.length / bs * bs :=
    Nat.mul_le_mul_right bs hk
  have h2 : c.length / bs * bs ≤ c.length := Nat.div_mul_le_self _ _
  have h3 : k * bs + bs ≤ c.length := by
    calc k * bs + bs = (k + 1) * bs := by rw [Nat.succ_mul]
    _ ≤ c.length := le_trans h1 h2
  omega

/-- The number of full blocks is `length / bs`. -/
theorem fullBlocks_count (c : List Nat) (bs : Nat) :
    (fullBlocks c bs).length = c.length / bs := by
  rw [fullBlocks, List.length_map, List.length_range]

/-- The trailing remainder of the stream after the truncated part has
`length % bs` tokens. -/
theorem length_drop_truncated (c : List Nat) (bs : Nat) :
    (c.drop (c.length / bs * bs)).length = c.length % bs := by
  rw [List.length_drop]
  have h := Nat.div_add_mod c.length bs
  rw [Nat.mul_comm] at h
  have hle : c.length / bs * bs ≤ c.length := Nat.div_mul_le_self _ _
  omega

/-- When the stream length is not a multiple of `block_size`, `block` emits
the full blocks followed by the single padded remainder block. -/
theorem block_eq_of_mod_ne (eos : Nat) (ids : List (List Nat)) (bs : Nat)
    (hbs : 0 < bs) (hr : ids.flatten.length % bs ≠ 0) :
    block eos ids bs =
      some { input_ids := fullBlocks ids.flatten bs ++
               [ids.flatten.drop (ids.flatten.length / bs * bs) ++
                 List.replicate (bs - ids.flatten.length % bs) eos],
             labels := fullBlocks ids.flatten bs ++
               [ids.flatten.drop (ids.flatten.length / bs * bs) ++
                 List.replicate (bs - ids.flatten.length % bs) eos] } := by
  have hlt : ids.flatten.length % bs < bs := Nat.mod_lt _ hbs
  have hpad : bs - ids.flatten.length % bs ≠ bs := by omega
  simp only [block, fullBlocks, if_pos hpad, ne_eq, hpad, not_false_iff, if_true]
  rw [if_pos]
  simp [List.length_append]

/-- When the stream length is a multiple of `block_size` (and positive),
`block` emits exactly the full blocks with no remainder. -/
theorem block_eq_of_mod_eq (eos : Nat) (ids : List (List Nat)) (bs : Nat)
    (hbs : 0 < bs) (hr : ids.flatten.length % bs = 0)
    (hpos : 0 < ids.flatten.length) :
    block eos ids bs =
      some { input_ids := fullBlocks ids.flatten bs,
             labels := fullBlocks ids.flatten bs } := by
  have hpad : ¬ (bs - ids.flatten.length % bs ≠ bs) := by
    rw [hr]; omega
  have hq : 0 < ids.flatten.length / bs := by
    apply Nat.div_pos _ hbs
    have hdvd : bs ∣ ids.flatten.length := Nat.dvd_of_mod_eq_zero hr
    exact Nat.le_of_dvd hpos hdvd
  simp only [block, fullBlocks, if_neg hpad]
  rw [if_pos]
  rw [List.length_map, List.length_range]
  exact hq

/-- On an empty stream, `block` hits its failed assertion. -/
theorem block_eq_none_of_empty (eos : Nat) (ids : List (List Nat)) (bs : Nat)
    (hlen : ids.flatten.length = 0) :
    block eos ids bs = none := by
  simp only [block, hlen]
  have h0 : ids.flatten = [] := List.length_eq_zero.mp hlen
  simp [h0, Nat.zero_div, Nat.zero_mod]

/-- When the stream length is a multiple of `bs`, the truncated length is the
whole length. -/
theorem trunc_eq_of_mod_eq (c : List Nat) (bs : Nat)
    (hr : c.length % bs = 0) :
    c.length / bs * bs = c.length :=
  Nat.div_mul_cancel (Nat.dvd_of_mod_eq_zero hr)

/-- Flattening the emitted blocks of a successful `block` call and keeping
the first `total_length` tokens recovers the concatenated input stream. -/
theorem block_flatten_take (eos : Nat) (ids : List (List Nat)) (bs : Nat)
    (out : BlockedBatch) (hbs : 0 < bs)
    (hout : block eos ids bs = some out) :
    (out.input_ids.flatten).take ids.flatten.length = ids.flatten := by
  by_cases hr : ids.flatten.length % bs = 0
  · by_cases hpos : 0 < ids.flatten.length
    · rw [block_eq_of_mod_eq eos ids bs hbs hr hpos] at hout
      injection hout with h
      rw [← h]
      rw [fullBlocks_flatten, trunc_eq_of_mod_eq _ _ hr, List.take_length,
        List.take_length]
    · have h0 : ids.flatten.length = 0 := by omega
      rw [block_eq_none_of_empty eos ids bs h0] at hout
      cases hout
  · rw [block_eq_of_mod_ne eos ids bs hbs hr] at hout
    injection hout with h
    rw [← h]
    show ((fullBlocks ids.flatten bs ++ _).flatten).take _ = _
    rw [List.flatten_append, fullBlocks_flatten]
    simp only [List.flatten_cons, List.flatten_nil, List.append_nil]
    rw [← List.append_assoc, List.take_append_drop]
    exact List.take_left _ _

/-- The full-block slices written with `pySlice` are the drop/take slices at
successive multiples of `bs`. -/
theorem fullBlocks_eq_dropTake (c : List Nat) (bs : Nat) :
    fullBlocks c bs =
      (List.range (c.length / bs)).map (fun k => (c.drop (k * bs)).take bs) := by
  simp only [fullBlocks, pySlice_eq]

/-- C1: for every non-empty ordered collection of token sequences and every
`block_size > 0`, every block emitted by `block` has exactly `block_size`
tokens, the padded remainder block included. -/
theorem block_uniform_length (eos : Nat) (ids : List (List Nat)) (bs : Nat)
    (out : BlockedBatch) (hbs : 0 < bs) (_hne : ids ≠ [])
    (hout : block eos ids bs = some out) :
    ∀ b ∈ out.input_ids, b.length = bs := by
  by_cases hr : ids.flatten.length % bs = 0
  · by_cases hpos : 0 < ids.flatten.length
    · rw [block_eq_of_mod_eq eos ids bs hbs hr hpos] at hout
      injection hout with h
      rw [← h]
      exact fullBlocks_length _ _
    · have h0 : ids.flatten.length = 0 := by omega
      rw [block_eq_none_of_empty eos ids bs h0] at hout
      cases hout
  · rw [block_eq_of_mod_ne eos ids bs hbs hr] at hout
    injection hout with h
    rw [← h]
    intro b hb
    rw [List.mem_append] at hb
    rcases hb with hb | hb
    · exact fullBlocks_length _ _ b hb
    · rw [List.mem_singleton] at hb
      subst hb
      rw [List.length_append, List.length_replicate, length_drop_truncated]
      have hlt : ids.flatten.length % bs < bs := Nat.mod_lt _ hbs
      omega

/-- C1 witness: the padded remainder block of the spec's worked example. -/
theorem block_uniform_length_witness :
    ([5, 0] : List Nat).length = 2 :=
  block_uniform_length 0 [[1, 2, 3], [4, 5]] 2
    { input_ids := [[1, 2], [3, 4], [5, 0]], labels := [[1, 2], [3, 4], [5, 0]] }
    (by decide) (by decide) (by decide) [5, 0] (by decide)

/-- C2: with `block_size > 0`, `block` fails (hits its assertion, modelled as
`none`) exactly on inputs whose concatenated length is zero; on every input
with positive concatenated length it succeeds and the emitted collection is
non-empty. -/
theorem block_empty_input_fails (eos : Nat) (ids : List (List Nat)) (bs : Nat)
    (hbs : 0 < bs) :
    (ids.flatten.length = 0 → block eos ids bs = none) ∧
    (ids.flatten.length ≠ 0 →
      ∃ out, block eos ids bs = some out ∧ out.input_ids ≠ []) := by
  constructor
  · exact block_eq_none_of_empty eos ids bs
  · intro hlen
    by_cases hr : ids.flatten.length % bs = 0
    · refine ⟨_, block_eq_of_mod_eq eos ids bs hbs hr (by omega), ?_⟩
      have hq : 0 < ids.flatten.length / bs := by
        apply Nat.div_pos _ hbs
        exact Nat.le_of_dvd (by omega) (Nat.dvd_of_mod_eq_zero hr)
      have hlenF : (fullBlocks ids.flatten bs).length = ids.flatten.length / bs :=
        fullBlocks_count _ _
      show fullBlocks ids.flatten bs ≠ []
      intro hnil
      rw [hnil, List.length_nil] at hlenF
      omega
    · refine ⟨_, block_eq_of_mod_ne eos ids bs hbs hr, ?_⟩
      simp

/-- C2 witness. -/
theorem block_empty_input_fails_witness :
    block 0 ([] : List (List Nat)) 2 = none ∧
    ∃ out, block 0 [[1, 2, 3]] 2 = some out ∧ out.input_ids ≠ [] :=
  ⟨(block_empty_input_fails 0 [] 2 (by decide)).1 (by decide),
   (block_empty_input_fails 0 [[1, 2, 3]] 2 (by decide)).2 (by decide)⟩

/-- C3: for every non-empty input collection and `block_size > 0`,
concatenating all emitted blocks and keeping the first `total_length` tokens
(the non-padding tokens) yields exactly the concatenation, in input order,
of the original token sequences. -/
theorem block_roundtrip_nonpadded (eos : Nat) (ids : List (List Nat))
    (bs : Nat) (out : BlockedBatch) (hbs : 0 < bs) (_hne : ids ≠ [])
    (hout : block eos ids bs = some out) :
    (out.input_ids.flatten).take ids.flatten.length = ids.flatten :=
  block_flatten_take eos ids bs out hbs hout

/-- C3 witness. -/
theorem block_roundtrip_nonpadded_witness :
    (([[1, 2], [3, 4], [5, 0]] : List (List Nat)).flatten).take 5
      = ([[1, 2, 3], [4, 5]] : List (List Nat)).flatten :=
  block_roundtrip_nonpadded 0 [[1, 2, 3], [4, 5]] 2
    { input_ids := [[1, 2], [3, 4], [5, 0]], labels := [[1, 2], [3, 4], [5, 0]] }
    (by decide) (by decide) (by decide)

/-- C4: with `block_size > 0`, when `total_length mod block_size = r > 0` the
emitted collection is exactly the `total_length / block_size` full slices at
successive `block_size` offsets followed by one padded block holding the `r`
genuine trailing tokens and then `block_size - r` copies of the pad token;
when `r = 0`, no remainder block is emitted. -/
theorem block_remainder_padding (eos : Nat) (ids : List (List Nat)) (bs : Nat)
    (out : BlockedBatch) (hbs : 0 < bs)
    (hout : block eos ids bs = some out) :
    (ids.flatten.length % bs ≠ 0 →
      out.input_ids =
        (List.range (ids.flatten.length / bs)).map
          (fun k => (ids.flatten.drop (k * bs)).take bs)
        ++ [ids.flatten.drop (ids.flatten.length / bs * bs)
            ++ List.replicate (bs - ids.flatten.length % bs) eos]
      ∧ (ids.flatten.drop (ids.flatten.length / bs * bs)).length
          = ids.flatten.length % bs) ∧
    (ids.flatten.length % bs = 0 →
      out.input_ids =
        (List.range (ids.flatten.length / bs)).map
          (fun k => (ids.flatten.drop (k * bs)).take bs)) := by
  constructor
  · intro hr
    rw [block_eq_of_mod_ne eos ids bs hbs hr] at hout
    injection hout with h
    rw [← h, ← fullBlocks_eq_dropTake]
    exact ⟨rfl, length_drop_truncated _ _⟩
  · intro hr
    by_cases hpos : 0 < ids.flatten.length
    · rw [block_eq_of_mod_eq eos ids bs hbs hr hpos] at hout
      injection hout with h
      rw [← h, ← fullBlocks_eq_dropTake]
    · have h0 : ids.flatten.length = 0 := by omega
      rw [block_eq_none_of_empty eos ids bs h0] at hout
      cases hout

/-- C4 witness. -/
theorem block_remainder_padding_witness :
    ([[1, 2], [3, 4], [5, 0]] : List (List Nat)) =
      (List.range 2).map
        (fun k => ((([[1, 2, 3], [4, 5]] : List (List Nat)).flatten).drop (k * 2)).take 2)
      ++ [(([[1, 2, 3], [4, 5]] : List (List Nat)).flatten).drop 4
          ++ List.replicate 1 0] := by
  have h := (block_remainder_padding 0 [[1, 2, 3], [4, 5]] 2
    { input_ids := [[1, 2], [3, 4], [5, 0]], labels := [[1, 2], [3, 4], [5, 0]] }
    (by decide) (by decide)).1 (by decide)
  exact h.1

/-- C5: with `block_size > 0`, when the concatenated length is an exact
multiple of `block_size`, the flattened output is exactly the concatenated
input: no padding token is appended anywhere. -/
theorem block_no_padding_on_exact_multiple (eos : Nat) (ids : List (List Nat))
    (bs : Nat) (out : BlockedBatch) (hbs : 0 < bs)
    (hr : ids.flatten.length % bs = 0)
    (hout : block eos ids bs = some out) :
    out.input_ids.flatten = ids.flatten := by
  by_cases hpos : 0 < ids.flatten.length
  · rw [block_eq_of_mod_eq eos ids bs hbs hr hpos] at hout
    injection hout with h
    rw [← h]
    rw [fullBlocks_flatten, trunc_eq_of_mod_eq _ _ hr, List.take_length]
  · have h0 : ids.flatten.length = 0 := by omega
    rw [block_eq_none_of_empty eos ids bs h0] at hout
    cases hout

/-- C5 witness. -/
theorem block_no_padding_on_exact_multiple_witness :
    ([[1, 2], [3, 4]] : List (List Nat)).flatten
      = ([[1, 2, 3, 4]] : List (List Nat)).flatten :=
  block_no_padding_on_exact_multiple 0 [[1, 2, 3, 4]] 2
    { input_ids := [[1, 2], [3, 4]], labels := [[1, 2], [3, 4]] }
    (by decide) (by decide) (by decide)

/-- Every successful `block` call mirrors its token blocks as labels. -/
theorem block_labels_eq (eos : Nat) (ids : List (List Nat)) (bs : Nat)
    (out : BlockedBatch) (hout : block eos ids bs = some out) :
    out.labels = out.input_ids := by
  simp only [block] at hout
  split at hout
  · split at hout
    · injection hout with h
      rw [← h]
    · cases hout
  · split at hout
    · injection hout with h
      rw [← h]
    · cases hout

/-- C6: the tokenizer stage returns labels equal to its input ids, and every
emitted block batch carries labels identical to its token blocks. -/
theorem tokenize_block_labels_mirror (encode : String → List Nat) (eos : Nat) :
    (∀ s, (tokenize encode eos s).labels = (tokenize encode eos s).input_ids) ∧
    (∀ ids bs out, block eos ids bs = some out →
      out.labels = out.input_ids) := by
  constructor
  · intro s
    rfl
  · intro ids bs out hout
    exact block_labels_eq eos ids bs out hout

/-- C6 witness. -/
theorem tokenize_block_labels_mirror_witness :
    (tokenize (fun _ => [7]) 9 "x").labels
        = (tokenize (fun _ => [7]) 9 "x").input_ids ∧
    (BlockedBatch.mk [[1, 2]] [[1, 2]]).labels
        = (BlockedBatch.mk [[1, 2]] [[1, 2]]).input_ids := by
  have h := tokenize_block_labels_mirror (fun _ => [7]) 9
  exact ⟨h.1 "x", h.2 [[1, 2]] 2 (BlockedBatch.mk [[1, 2]] [[1, 2]]) (by decide)⟩

/-! ### The dataset split and the launch script: theorems -/

/-- Looking up every index of a list in order recovers the list. -/
theorem range_filterMap_getElem {α : Type} (l : List α) :
    (List.range l.length).filterMap (fun i => l[i]?) = l := by
  induction l with
  | nil => rfl
  | cons a t ih =>
    simp only [List.length_cons, List.range_succ_eq_map, List.filterMap_cons,
      List.getElem?_cons_zero, List.filterMap_map]
    rw [show ((fun i => (a :: t)[i]?) ∘ Nat.succ) = fun i => t[i]? from
      funext (fun i => by simp)]
    rw [ih]

/-- Shuffling by a permutation of the index range permutes the rows. -/
theorem seededShuffle_perm {α : Type} (perm : List Nat) (rows : List α)
    (hperm : perm.Perm (List.range rows.length)) :
    (seededShuffle perm rows).Perm rows := by
  have h := List.Perm.filterMap (fun i => rows[i]?) hperm
  rw [range_filterMap_getElem] at h
  exact h

/-- C7: the train/test splitter partitions the rows, shuffled by a
seed-derived permutation of the index range, into two collections with no
row in both: train and test are disjoint, and together they are exactly the
original rows. -/
theorem train_test_split_disjoint {α : Type} (perm : List Nat) (k : Nat)
    (rows : List α) (hperm : perm.Perm (List.range rows.length))
    (hnd : rows.Nodup) :
    List.Disjoint (train_test_split perm k rows).1
      (train_test_split perm k rows).2 ∧
    ((train_test_split perm k rows).2 ++
      (train_test_split perm k rows).1).Perm rows := by
  have hp : (seededShuffle perm rows).Perm rows :=
    seededShuffle_perm perm rows hperm
  have hnd2 : (seededShuffle perm rows).Nodup := hp.symm.nodup hnd
  constructor
  · show List.Disjoint ((seededShuffle perm rows).drop k)
      ((seededShuffle perm rows).take k)
    exact (List.disjoint_take_drop hnd2 (le_refl k)).symm
  · show ((seededShuffle perm rows).take k ++
      (seededShuffle perm rows).drop k).Perm rows
    rw [List.take_append_drop]
    exact hp

/-- C7 witness. -/
theorem train_test_split_disjoint_witness :
    List.Disjoint (train_test_split [2, 0, 1] 1 [[10], [20], [30]]).1
      (train_test_split [2, 0, 1] 1 [[10], [20], [30]]).2 ∧
    ((train_test_split [2, 0, 1] 1 [[10], [20], [30]]).2 ++
      (train_test_split [2, 0, 1] 1 [[10], [20], [30]]).1).Perm
        [[10], [20], [30]] :=
  train_test_split_disjoint [2, 0, 1] 1 ([[10], [20], [30]] : List (List Nat))
    (by decide) (by decide)

/-- C8: for a group number `g` given as the first positional argument (alone
or followed by an access token), `run.sh` selects GPU index `g % 4`, host
port `8000 + g`, and container name `ai4se-` followed by the argument. -/
theorem run_sh_group_arg (g : Nat) (s t : String) (h : bashNat s = g) :
    (AI_GPU [s] = g % 4 ∧ AI_PORT [s] = 8000 + g ∧
      AI_CONTAINER_NAME [s] = "ai4se-" ++ s) ∧
    (AI_GPU [s, t] = g % 4 ∧ AI_PORT [s, t] = 8000 + g ∧
      AI_CONTAINER_NAME [s, t] = "ai4se-" ++ s) := by
  have h1 : AI_GROUP [s] = s := rfl
  have h2 : AI_GROUP [s, t] = s := rfl
  constructor
  · exact ⟨by simp [AI_GPU, AI_GROUP_num, h1, h],
      by simp [AI_PORT, AI_GROUP_num, h1, h],
      by simp [AI_CONTAINER_NAME, h1]⟩
  · exact ⟨by simp [AI_GPU, AI_GROUP_num, h2, h],
      by simp [AI_PORT, AI_GROUP_num, h2, h],
      by simp [AI_CONTAINER_NAME, h2]⟩

/-- C8 witness. -/
theorem run_sh_group_arg_witness :
    (AI_GPU ["5"] = 5 % 4 ∧ AI_PORT ["5"] = 8000 + 5 ∧
      AI_CONTAINER_NAME ["5"] = "ai4se-" ++ "5") ∧
    (AI_GPU ["5", "tok"] = 5 % 4 ∧ AI_PORT ["5", "tok"] = 8000 + 5 ∧
      AI_CONTAINER_NAME ["5", "tok"] = "ai4se-" ++ "5") :=
  run_sh_group_arg 5 "5" "tok" (by decide)

/-- C9: `tokenize` appends the tokenizer's end-of-sequence id after the
encoded source, so every token sequence handed to block packing ends with
that id — the same id used later as the pad token — and hence that id occurs
among the genuine (non-padding) tokens of the emitted blocks. -/
theorem tokenize_appends_eos (encode : String → List Nat) (eos bs : Nat)
    (sources : List String) (out : BlockedBatch) :
    (∀ s, ((tokenize encode eos s).input_ids).getLast? = some eos) ∧
    (sources ≠ [] → 0 < bs →
      block eos (tokenizedIds encode eos sources) bs = some out →
      eos ∈ ((out.input_ids.flatten).take
        (tokenizedIds encode eos sources).flatten.length)) := by
  constructor
  · intro s
    show (encode s ++ [eos]).getLast? = some eos
    exact List.getLast?_concat _
  · intro hne hbs hout
    rw [block_flatten_take _ _ _ _ hbs hout]
    obtain ⟨s, rest, rfl⟩ := List.exists_cons_of_ne_nil hne
    show eos ∈ (tokenizedIds encode eos (s :: rest)).flatten
    simp [tokenizedIds, tokenize]

/-- C9 witness. -/
theorem tokenize_appends_eos_witness :
    ((tokenize (fun _ => [7]) 9 "x").input_ids).getLast? = some 9 ∧
    9 ∈ (((BlockedBatch.mk [[7, 9]] [[7, 9]]).input_ids.flatten).take
      (tokenizedIds (fun _ => [7]) 9 ["x"]).flatten.length) := by
  have h := tokenize_appends_eos (fun _ => [7]) 9 2 ["x"]
    (BlockedBatch.mk [[7, 9]] [[7, 9]])
  exact ⟨h.1 "x", h.2 (by decide) (by decide) (by decide)⟩

/-- C10: invoked with zero positional arguments, `run.sh` proceeds with the
built-in defaults — group number `1` and access token
`set_notebook_password` — rather than failing; with exactly one argument,
only the group number is overridden and the default access token is kept. -/
theorem run_sh_default_args :
    AI_GROUP [] = "1" ∧ AI_GROUP_num [] = 1 ∧
    AI_LOGIN [] = "set_notebook_password" ∧
    ∀ s : String, AI_GROUP [s] = s ∧ AI_LOGIN [s] = "set_notebook_password" :=
  ⟨rfl, by decide, rfl, fun s => ⟨rfl, rfl⟩⟩

end AI4SE

section SanityChecks

example : AI4SE.block 0 [[1, 2, 3], [4, 5]] 2 =
    some { input_ids := [[1, 2], [3, 4], [5, 0]],
           labels := [[1, 2], [3, 4], [5, 0]] } := by
  decide

example : AI4SE.block 0 [[1, 2, 3, 4]] 2 =
    some { input_ids := [[1, 2], [3, 4]], labels := [[1, 2], [3, 4]] } := by
  decide

example : AI4SE.block 0 [] 2 = none := by decide

example : AI4SE.block 0 [[]] 2 = none := by decide

example : AI4SE.bashNat "15" = 15 := by decide

example : AI4SE.bashNat "garbage" = 0 := by decide

end SanityChecks
